import Mathlib

/-!
Verification of the DataProcessor cleaning/validation pipeline.

The Python sources (src/core/processor.py, src/models/schemas.py) are
shallowly embedded here.  A pandas DataFrame is a `Table`: a header of
(column name, dtype tag) pairs over a list of rows; a cell is a `Value`
(an exact rational for a numeric cell, a text value, or NA).  Quantiles
follow the pandas default linear interpolation over present values.
A raised Python exception is an `Except.error` carrying the message,
and the try/except of `process_dataset` is the `match` in `processWith`.
-/

attribute [local semireducible] Rat.mul Rat.inv Rat.add Rat.sub

deriving instance DecidableEq for Except

namespace DataProcessor

/-- A cell of a DataFrame: a numeric value (modelled as an exact
rational), a text value, or a missing value (NaN / None). -/
inductive Value where
  | num (v : ℚ)
  | str (s : String)
  | na
deriving DecidableEq

abbrev Row := List Value

/-- A pandas DataFrame: dtype-tagged named columns over a list of rows.
Row identity is positional. -/
structure Table where
  header : List (String × String)
  rows : List Row
deriving DecidableEq

/-- Rectangularity: every row has one cell per column. -/
def Table.WF (t : Table) : Prop := ∀ r ∈ t.rows, r.length = t.header.length

instance (t : Table) : Decidable t.WF := by unfold Table.WF; infer_instance

/-- Name of column `j`. -/
def colName (t : Table) (j : Nat) : String := (t.header.getD j ("", "")).1

/-- Dtype tag of column `j` (`str(df[col].dtype)`). -/
def colDtype (t : Table) (j : Nat) : String := (t.header.getD j ("", "")).2

/-- Indices of the numeric columns:
`df.select_dtypes(include=["float64", "int64"]).columns`. -/
def numericIdx (t : Table) : List Nat :=
  (List.range t.header.length).filter
    (fun j => colDtype t j == "float64" || colDtype t j == "int64")

/-- The cells of column `j`, top to bottom (`df[col]`). -/
def colVals (t : Table) (j : Nat) : List Value :=
  t.rows.map (fun r => r.getD j Value.na)

/-- The present (non-NA) numeric values of column `j`; pandas
reductions (`mean`, `median`, `quantile`) skip NA. -/
def presentVals (t : Table) (j : Nat) : List ℚ :=
  (colVals t j).filterMap (fun v => match v with | Value.num q => some q | _ => none)

/-- pandas `Series.quantile(q)` with the default linear interpolation
over the present values: with the values sorted ascending and
`pos = q * (n - 1)`, interpolate between positions `⌊pos⌋` and
`⌊pos⌋ + 1`.  `none` when there are no present values (pandas NaN). -/
def quantileLinear (q : ℚ) (xs : List ℚ) : Option ℚ :=
  match xs.length with
  | 0 => none
  | Nat.succ m =>
    let s := xs.insertionSort (· ≤ ·)
    let pos : ℚ := q * (m : ℚ)
    let i : Nat := pos.floor.toNat
    let below := s.getD i 0
    let above := s.getD (i + 1) below
    some (below + (pos - (i : ℚ)) * (above - below))

/-- The fixed IQR outlier bounds of column `j`, computed from the column
as it stands in `t`:  `(Q1 - 1.5*IQR, Q3 + 1.5*IQR)` with
`Q1 = quantile(0.25)`, `Q3 = quantile(0.75)`, `IQR = Q3 - Q1`. -/
def colBounds (t : Table) (j : Nat) : Option (ℚ × ℚ) :=
  match quantileLinear (1/4) (presentVals t j), quantileLinear (3/4) (presentVals t j) with
  | some q1, some q3 => some (q1 - 3/2 * (q3 - q1), q3 + 3/2 * (q3 - q1))
  | _, _ => none

/-- `(df[col] < lo) | (df[col] > hi)` at one row: an NA cell (or a cell
of a non-numeric kind, impossible in a well-typed numeric column)
compares false on both sides, exactly as NaN does in pandas. -/
def isOutlierAt (bounds : Nat → Option (ℚ × ℚ)) (r : Row) (j : Nat) : Bool :=
  match r.getD j Value.na, bounds j with
  | Value.num v, some (lo, hi) => decide (v < lo) || decide (v > hi)
  | _, _ => false

/-- `DataProcessor._remove_outliers`: per numeric column the mask is
computed from the incoming table `t` (`df`), and the masks are applied
jointly (boolean indexing aligns on row identity), so a row survives
iff no numeric column marks it as an outlier. -/
def remove_outliers (t : Table) : Table :=
  { t with rows :=
      t.rows.filter (fun r => !((numericIdx t).any (fun j => isOutlierAt (colBounds t) r j))) }

/-- Core of `DataFrame.drop_duplicates()`: walk the rows in order,
keeping a row exactly when it is not a duplicate of an earlier kept row
(`seen` holds the rows already emitted). -/
def dedupSeen {α : Type} [DecidableEq α] (seen : List α) : List α → List α
  | [] => []
  | x :: xs => if x ∈ seen then dedupSeen seen xs else x :: dedupSeen (x :: seen) xs

/-- `DataFrame.drop_duplicates()`: keep the first occurrence of each
row, dropping later exact duplicates; the order of kept rows is the
order of their first occurrences. -/
def dedupFirst {α : Type} [DecidableEq α] (l : List α) : List α := dedupSeen [] l

/-- The position of the first occurrence of `a` in a list (the length
of the list when `a` is absent). -/
def firstIdx {α : Type} [DecidableEq α] (a : α) : List α → Nat
  | [] => 0
  | x :: xs => if x = a then 0 else firstIdx a xs + 1

/-- `DataProcessor._preprocess_data`: copy, then `drop_duplicates()`
(the duplicate count is only logged). -/
def preprocess_data (t : Table) : Table :=
  { t with rows := dedupFirst t.rows }

/-- `Series.mean()` over the present values of column `j` (pandas skips
NA); `none` when the column has no present value (pandas NaN). -/
def colMeanQ (t : Table) (j : Nat) : Option ℚ :=
  let xs := presentVals t j
  if xs.isEmpty then none else some (xs.sum / (xs.length : ℚ))

/-- `Series.median()` over the present values of column `j`: the 0.5
quantile with linear interpolation; `none` when there is no present
value (pandas NaN). -/
def colMedianQ (t : Table) (j : Nat) : Option ℚ :=
  quantileLinear (1/2) (presentVals t j)

/-- One cell under `fillna(fillSeries)`: an NA cell in column `j` is
replaced when `j` is a numeric column (the fill series `df.mean()` /
`df.median()` ranges over the numeric columns) and the series holds a
present value there; every other cell is kept. -/
def applyFill (numIdx : List Nat) (fill : Nat → Option ℚ) (j : Nat) (v : Value) : Value :=
  match v with
  | Value.na =>
    if numIdx.contains j then
      match fill j with
      | some m => Value.num m
      | none => Value.na
    else Value.na
  | v => v

/-- `applyFill` across a row, carrying the column index. -/
def fillCells (numIdx : List Nat) (fill : Nat → Option ℚ) : Nat → Row → Row
  | _, [] => []
  | j, v :: vs => applyFill numIdx fill j v :: fillCells numIdx fill (j + 1) vs

/-- `fillna` applied to one row, columns indexed from 0. -/
def fillRow (numIdx : List Nat) (fill : Nat → Option ℚ) (r : Row) : Row :=
  fillCells numIdx fill 0 r

/-- `DataProcessor._handle_missing_values`: dispatch on the strategy
string; the second component records whether the unknown-strategy
warning was logged (`logger.warning`, else branch only).
`drop` is `dropna()` (drop rows with an NA in any column); `mean` and
`median` are `fillna(df.mean())` / `fillna(df.median())`; any other
strategy logs a warning and applies the `mean` behavior. -/
def handle_missing_values (strategy : String) (t : Table) : Table × Bool :=
  if strategy = "drop" then
    ({ t with rows := t.rows.filter (fun r => !r.any (fun v => v == Value.na)) }, false)
  else if strategy = "mean" then
    ({ t with rows := t.rows.map (fillRow (numericIdx t) (colMeanQ t)) }, false)
  else if strategy = "median" then
    ({ t with rows := t.rows.map (fillRow (numericIdx t) (colMedianQ t)) }, false)
  else
    ({ t with rows := t.rows.map (fillRow (numericIdx t) (colMeanQ t)) }, true)

/-- `df.isnull().sum().to_dict()`: per column, the count of NA cells. -/
def missingCounts (t : Table) : List (String × Nat) :=
  (List.range t.header.length).map
    (fun j => (colName t j, ((colVals t j).filter (fun v => v == Value.na)).length))

/-- A value held in the `stats` dictionary of a result. -/
inductive StatVal where
  | n (v : Nat)
  | s (v : String)
  | dict (d : List (String × Nat))
deriving DecidableEq

/-- `ProcessingResult` (src/models/schemas.py): cleaned data or
absence, the statistics mapping, and the success flag. -/
structure ProcessingResult where
  data : Option Table
  stats : List (String × StatVal)
  success : Bool
deriving DecidableEq

/-- The mutable state of a `DataProcessor` instance:
`_processed_count` and `_start_time` (time in whole seconds). -/
structure ProcState where
  processed_count : Nat
  start_time : Nat
deriving DecidableEq

/-- The configuration dictionary, as consumed by the pipeline: the only
key read inside `process_dataset` is `missing_value_strategy`
(`self.config.get("missing_value_strategy", "mean")`). -/
structure Config where
  missing_value_strategy : Option String
deriving DecidableEq

/-- `config.get("missing_value_strategy", "mean")`. -/
def Config.strategy (c : Config) : String := c.missing_value_strategy.getD "mean"

/-- The body of the `try` block up to the transformations: the empty
check (`if data.empty: raise ValueError("Empty dataset provided")`)
followed by the stage computation, which may itself fail. -/
def tryProcess (stages : Table → Except String Table) (t : Table) : Except String Table :=
  if t.rows.isEmpty then Except.error "Empty dataset provided" else stages t

/-- `DataProcessor.process_dataset`, generic in the stage computation:
the `except Exception` clause turns any failure into a
`success=false` result with the message under `"error"`, leaving the
instance state untouched; on success the stats are computed, the
instance counter is incremented by the record count, and a
`success=true` result carries the cleaned table. -/
def processWith (stages : Table → Except String Table) (st : ProcState) (now : Nat)
    (t : Table) : ProcessingResult × ProcState :=
  match tryProcess stages t with
  | Except.error e =>
    ({ data := none, stats := [("error", StatVal.s e)], success := false }, st)
  | Except.ok out =>
    ({ data := some out,
       stats := [("record_count", StatVal.n out.rows.length),
                 ("missing_values", StatVal.dict (missingCounts out)),
                 ("processing_time", StatVal.n (now - st.start_time))],
       success := true },
     { st with processed_count := st.processed_count + out.rows.length })

/-- The three transformation stages, in source order: dedup, outlier
removal, missing-value handling (the logged warning flag is dropped). -/
def pipelineStages (cfg : Config) (t : Table) : Table :=
  (handle_missing_values cfg.strategy (remove_outliers (preprocess_data t))).1

/-- `DataProcessor.process_dataset` with the concrete stages; the stage
functions of this pipeline are total, so the only failure they produce
is the empty check. -/
def process_dataset (cfg : Config) (st : ProcState) (now : Nat) (t : Table) :
    ProcessingResult × ProcState :=
  processWith (fun d => Except.ok (pipelineStages cfg d)) st now t

/-- `DataProcessor.processing_stats`: total processed, uptime in whole
seconds, and average throughput (0 when the uptime is 0). -/
def processing_stats (st : ProcState) (now : Nat) : List (String × ℚ) :=
  let uptime : Nat := now - st.start_time
  [("total_processed", (st.processed_count : ℚ)),
   ("uptime_seconds", (uptime : ℚ)),
   ("average_throughput",
     if 0 < uptime then (st.processed_count : ℚ) / (uptime : ℚ) else 0)]

/-- `DatasetSchema` (src/models/schemas.py); only the fields read by
`validate_dataframe` matter to validation. -/
structure DatasetSchema where
  name : String
  version : String
  required_columns : List String
  column_types : List (String × String)
deriving DecidableEq

/-- `set(self.required_columns) - set(df.columns)`: the distinct
required names absent from the table, in first-occurrence order (a
Python set iterates in an unspecified, hash-dependent order; this model
fixes the first-occurrence order as its deterministic rendering). -/
def missingColumns (required : List String) (cols : List String) : List String :=
  dedupFirst (required.filter (fun c => !cols.contains c))

/-- Python `str` of a set of strings: brace-delimited, comma-separated,
each name between single-quote marks. -/
def formatStrSet (xs : List String) : String :=
  "\x7b" ++ String.intercalate ", " (xs.map (fun x => "\x27" ++ x ++ "\x27")) ++ "\x7d"

/-- `str(df[col].dtype)` by column name: dtype of the first column
carrying that name, if present. -/
def headerDtype (cols : List (String × String)) (c : String) : Option String :=
  (cols.lookup c)

/-- The `for col, expected_type in self.column_types.items()` loop:
skip names absent from the table, raise on the first dtype mismatch
(exact string identity), succeed past the end. -/
def checkTypes (cols : List (String × String)) : List (String × String) → Except String Bool
  | [] => Except.ok true
  | (c, expected) :: rest =>
    match headerDtype cols c with
    | some actual =>
      if actual = expected then checkTypes cols rest
      else Except.error ("Column \x27" ++ c ++ "\x27 has type " ++ actual ++
        ", expected " ++ expected)
    | none => checkTypes cols rest

/-- `DatasetSchema.validate_dataframe`: the required-column check runs
first and raises if any required column is absent; then the type checks
run in `column_types` order; success returns `True`. -/
def validate_dataframe (s : DatasetSchema) (t : Table) : Except String Bool :=
  let missing := missingColumns s.required_columns (t.header.map (fun p => p.1))
  if missing.isEmpty then checkTypes t.header s.column_types
  else Except.error ("Missing required columns: " ++ formatStrSet missing)

/-! Concrete fixtures used by witnesses and counterexamples. -/

/-- One float64 column `value = [1, 2, 3, 100]`; `100` is an IQR
outlier (bounds `[-36.5, 65.5]`). -/
def T1 : Table :=
  { header := [("value", "float64")],
    rows := [[Value.num 1], [Value.num 2], [Value.num 3], [Value.num 100]] }

/-- Three columns (`int64`, `object`, `float64`) with NA cells in the
text and float columns; the present values of the float column are
`[1, 3, 5]`, so its mean is 3. -/
def T2 : Table :=
  { header := [("id", "int64"), ("name", "object"), ("value", "float64")],
    rows := [[Value.num 1, Value.str "a", Value.num 1],
             [Value.num 2, Value.na, Value.na],
             [Value.num 3, Value.str "c", Value.num 3],
             [Value.num 4, Value.str "d", Value.num 5]] }

/-- A numeric column holding only NA: `df.mean()` of this column is
NaN, so `fillna` leaves the NA in place. -/
def Tna : Table :=
  { header := [("value", "float64")], rows := [[Value.na]] }

/-- A table with a declared column and zero rows. -/
def TEmpty : Table :=
  { header := [("value", "float64")], rows := [] }

/-- One int64 column with a duplicated row (`[2, 1, 2]`). -/
def T3 : Table :=
  { header := [("v", "int64")],
    rows := [[Value.num 2], [Value.num 1], [Value.num 2]] }

/-- A schema requiring `b` and `a`, in that order, with no type
declarations. -/
def schemaBA : DatasetSchema :=
  { name := "s", version := "1", required_columns := ["b", "a"], column_types := [] }

/-- A schema for `T2` whose declared type for `value` disagrees with
the table. -/
def schemaT2 : DatasetSchema :=
  { name := "s", version := "1", required_columns := ["id", "value"],
    column_types := [("id", "int64"), ("value", "int64")] }

/-- A one-column, one-row table whose only column is named `c`. -/
def Tone : Table :=
  { header := [("c", "int64")], rows := [[Value.num 1]] }

/-- A stage computation that fails, standing for an internal error
raised by a transformation on malformed data. -/
def failingStages (_t : Table) : Except String Table :=
  Except.error "unsupported operand type"

/-! Deduplication lemmas. -/

theorem mem_dedupSeen {α : Type} [DecidableEq α] (seen l : List α) (a : α) :
    a ∈ dedupSeen seen l ↔ a ∈ l ∧ a ∉ seen := by
  induction l generalizing seen with
  | nil => simp [dedupSeen]
  | cons x xs ih =>
    by_cases hx : x ∈ seen
    · simp only [dedupSeen, if_pos hx, ih, List.mem_cons]
      constructor
      · rintro ⟨h1, h2⟩
        exact ⟨Or.inr h1, h2⟩
      · rintro ⟨h1 | h1, h2⟩
        · exact absurd (h1 ▸ hx) h2
        · exact ⟨h1, h2⟩
    · by_cases hax : a = x
      · subst hax
        simp [dedupSeen, if_neg hx, hx]
      · simp only [dedupSeen, if_neg hx, List.mem_cons, ih, not_or]
        tauto

theorem dedupSeen_sublist {α : Type} [DecidableEq α] (seen l : List α) :
    (dedupSeen seen l).Sublist l := by
  induction l generalizing seen with
  | nil => simp [dedupSeen]
  | cons x xs ih =>
    by_cases hx : x ∈ seen
    · simp only [dedupSeen, if_pos hx]
      exact (ih seen).trans (List.sublist_cons_self x xs)
    · simp only [dedupSeen, if_neg hx]
      exact (ih (x :: seen)).cons₂ x

theorem dedupSeen_nodup {α : Type} [DecidableEq α] (seen l : List α) :
    (dedupSeen seen l).Nodup := by
  induction l generalizing seen with
  | nil => simp [dedupSeen]
  | cons x xs ih =>
    by_cases hx : x ∈ seen
    · simpa [dedupSeen, if_pos hx] using ih seen
    · simp only [dedupSeen, if_neg hx, List.nodup_cons]
      refine ⟨fun hmem => ?_, ih (x :: seen)⟩
      exact ((mem_dedupSeen _ _ _).1 hmem).2 (List.mem_cons_self x seen)

theorem dedupSeen_eq_self {α : Type} [DecidableEq α] (seen l : List α)
    (h1 : l.Nodup) (h2 : ∀ a ∈ l, a ∉ seen) : dedupSeen seen l = l := by
  induction l generalizing seen with
  | nil => simp [dedupSeen]
  | cons x xs ih =>
    have hx : x ∉ seen := h2 x (List.mem_cons_self x xs)
    simp only [dedupSeen, if_neg hx, List.cons.injEq, true_and]
    refine ih (x :: seen) (List.Nodup.of_cons h1) (fun a ha => ?_)
    simp only [List.mem_cons, not_or]
    exact ⟨fun hax => (List.nodup_cons.1 h1).1 (hax ▸ ha),
      h2 a (List.mem_cons_of_mem _ ha)⟩

theorem firstIdx_dedupSeen {α : Type} [DecidableEq α] (seen l : List α) (x y : α)
    (hx : x ∈ l) (hy : y ∈ l) (hxs : x ∉ seen) (hys : y ∉ seen) (hxy : x ≠ y) :
    (firstIdx x l < firstIdx y l ↔
     firstIdx x (dedupSeen seen l) < firstIdx y (dedupSeen seen l)) := by
  induction l generalizing seen with
  | nil => cases hx
  | cons a as ih =>
    by_cases ha : a ∈ seen
    · have hax : a ≠ x := fun h => hxs (h ▸ ha)
      have hay : a ≠ y := fun h => hys (h ▸ ha)
      have hx' : x ∈ as := by
        rcases List.mem_cons.1 hx with h | h
        · exact absurd h.symm hax
        · exact h
      have hy' : y ∈ as := by
        rcases List.mem_cons.1 hy with h | h
        · exact absurd h.symm hay
        · exact h
      simp only [dedupSeen, if_pos ha, firstIdx, if_neg hax, if_neg hay,
        Nat.add_lt_add_iff_right]
      exact ih seen hx' hy' hxs hys
    · by_cases hax : a = x
      · have hay : a ≠ y := fun h => hxy ((hax.symm.trans h))
        simp only [dedupSeen, if_neg ha, firstIdx, if_pos hax, if_neg hay]
        omega
      · by_cases hay : a = y
        · simp only [dedupSeen, if_neg ha, firstIdx, if_pos hay, if_neg hax]
          omega
        · have hx' : x ∈ as := by
            rcases List.mem_cons.1 hx with h | h
            · exact absurd h.symm hax
            · exact h
          have hy' : y ∈ as := by
            rcases List.mem_cons.1 hy with h | h
            · exact absurd h.symm hay
            · exact h
          have hxs' : x ∉ a :: seen := by
            simp only [List.mem_cons, not_or]
            exact ⟨fun h => hax h.symm, hxs⟩
          have hys' : y ∉ a :: seen := by
            simp only [List.mem_cons, not_or]
            exact ⟨fun h => hay h.symm, hys⟩
          simp only [dedupSeen, if_neg ha, firstIdx, if_neg hax, if_neg hay,
            Nat.add_lt_add_iff_right]
          exact ih (a :: seen) hx' hy' hxs' hys'

/-- Claim C9: deduplication removes every row that is an exact duplicate
of an earlier row, keeps the first occurrence, preserves the relative
order of the kept rows (the order of first occurrences), and is
idempotent. -/
theorem preprocess_dedup_spec (t : Table) :
    (preprocess_data t).rows.Nodup ∧
    (preprocess_data t).rows.Sublist t.rows ∧
    (∀ r, r ∈ (preprocess_data t).rows ↔ r ∈ t.rows) ∧
    (∀ x y, x ∈ t.rows → y ∈ t.rows → x ≠ y →
      (firstIdx x t.rows < firstIdx y t.rows ↔
       firstIdx x (preprocess_data t).rows < firstIdx y (preprocess_data t).rows)) ∧
    preprocess_data (preprocess_data t) = preprocess_data t := by
  refine ⟨dedupSeen_nodup [] t.rows, dedupSeen_sublist [] t.rows, fun r => ?_, ?_, ?_⟩
  · rw [preprocess_data]
    show r ∈ dedupFirst t.rows ↔ r ∈ t.rows
    rw [dedupFirst, mem_dedupSeen]
    simp
  · intro x y hx hy hxy
    exact firstIdx_dedupSeen [] t.rows x y hx hy (List.not_mem_nil x) (List.not_mem_nil y) hxy
  · simp only [preprocess_data, Table.mk.injEq, true_and]
    exact dedupSeen_eq_self [] (dedupFirst t.rows) (dedupSeen_nodup [] t.rows)
      (fun a _ => List.not_mem_nil a)

/-- Witness for C9 at `T3 = [[2], [1], [2]]`: the duplicate of `[2]` is
dropped and `[2]` stays before `[1]`. -/
theorem preprocess_dedup_spec_witness :
    firstIdx [Value.num 2] T3.rows < firstIdx [Value.num 1] T3.rows ↔
    firstIdx [Value.num 2] (preprocess_data T3).rows <
      firstIdx [Value.num 1] (preprocess_data T3).rows :=
  (preprocess_dedup_spec T3).2.2.2.1 [Value.num 2] [Value.num 1]
    (by decide) (by decide) (by decide)

/-! Outlier-removal lemmas. -/

theorem isOutlierAt_false_bounds {bounds : Nat → Option (ℚ × ℚ)} {r : Row} {j : Nat}
    {v lo hi : ℚ} (hv : r.getD j Value.na = Value.num v) (hb : bounds j = some (lo, hi))
    (h : isOutlierAt bounds r j = false) : lo ≤ v ∧ v ≤ hi := by
  unfold isOutlierAt at h
  rw [hv, hb] at h
  simp only [Bool.or_eq_false_iff, decide_eq_false_iff_not, not_lt] at h
  exact ⟨h.1, h.2⟩

/-- Claim C1: outlier removal follows the IQR rule.  The bounds of each
numeric column are those of the pre-filter table `t`, fixed before
filtering; a row survives exactly when no numeric column marks it as an
outlier (strictly outside its bounds); the row count never grows, and
every retained present value of a numeric column lies within the closed
interval of the pre-filter bounds. -/
theorem remove_outliers_iqr (t : Table) :
    (remove_outliers t).rows.length ≤ t.rows.length ∧
    (∀ r ∈ (remove_outliers t).rows, ∀ j ∈ numericIdx t, ∀ v lo hi,
        r.getD j Value.na = Value.num v → colBounds t j = some (lo, hi) →
        lo ≤ v ∧ v ≤ hi) ∧
    (∀ r, r ∈ (remove_outliers t).rows ↔
        r ∈ t.rows ∧ ∀ j ∈ numericIdx t, isOutlierAt (colBounds t) r j = false) := by
  have hmem : ∀ r, r ∈ (remove_outliers t).rows ↔
      r ∈ t.rows ∧ ∀ j ∈ numericIdx t, isOutlierAt (colBounds t) r j = false := by
    intro r
    show r ∈ t.rows.filter _ ↔ _
    rw [List.mem_filter]
    simp only [Bool.not_eq_true', List.any_eq_false, Bool.not_eq_true]
  refine ⟨List.length_filter_le _ _, ?_, hmem⟩
  intro r hr j hj v lo hi hv hb
  exact isOutlierAt_false_bounds hv hb (((hmem r).1 hr).2 j hj)

/-- Witness for C1 at `T1` (column values `[1, 2, 3, 100]`, bounds
`[-36.5, 65.5]`): the retained value 2 lies within the bounds. -/
theorem remove_outliers_iqr_witness : (-73/2 : ℚ) ≤ 2 ∧ (2 : ℚ) ≤ 131/2 :=
  (remove_outliers_iqr T1).2.1 [Value.num 2] (by decide) 0 (by decide) 2 (-73/2) (131/2)
    (by decide) (by decide)

/-! Missing-value lemmas. -/

theorem fillCells_length (ni : List Nat) (f : Nat → Option ℚ) (r : Row) :
    ∀ k, (fillCells ni f k r).length = r.length := by
  induction r with
  | nil => intro k; rfl
  | cons v vs ih => intro k; simp [fillCells, ih]

theorem fillCells_getD (ni : List Nat) (f : Nat → Option ℚ) (r : Row) :
    ∀ k j, j < r.length →
      (fillCells ni f k r).getD j Value.na = applyFill ni f (k + j) (r.getD j Value.na) := by
  induction r with
  | nil => intro k j h; cases h
  | cons v vs ih =>
    intro k j h
    cases j with
    | zero => rfl
    | succ j' =>
      have h' : j' < vs.length := Nat.lt_of_succ_lt_succ h
      have := ih (k + 1) j' h'
      have harith : k + 1 + j' = k + (j' + 1) := by omega
      rw [harith] at this
      simpa [fillCells] using this

theorem fillRow_getD (ni : List Nat) (f : Nat → Option ℚ) (r : Row) (j : Nat)
    (h : j < r.length) :
    (fillRow ni f r).getD j Value.na = applyFill ni f j (r.getD j Value.na) := by
  simpa using fillCells_getD ni f r 0 j h

theorem fillRow_length (ni : List Nat) (f : Nat → Option ℚ) (r : Row) :
    (fillRow ni f r).length = r.length := fillCells_length ni f r 0

/-- A filled cell of a numeric column is never NA when the fill series
holds a value for that column. -/
theorem applyFill_ne_na {ni : List Nat} {f : Nat → Option ℚ} {j : Nat} {m : ℚ}
    (hj : ni.contains j = true) (hf : f j = some m) (v : Value) :
    applyFill ni f j v ≠ Value.na := by
  have hmem : j ∈ ni := by simpa using hj
  cases v <;> simp [applyFill, hj, hf, hmem]

theorem getD_map_fillRow (ni : List Nat) (f : Nat → Option ℚ) (l : List Row) :
    ∀ i, i < l.length →
      (l.map (fillRow ni f)).getD i [] = fillRow ni f (l.getD i []) := by
  induction l with
  | nil => intro i h; cases h
  | cons r rs ih =>
    intro i h
    cases i with
    | zero => rfl
    | succ i' => simpa [List.getD] using ih i' (Nat.lt_of_succ_lt_succ h)

theorem handle_mean_def (t : Table) :
    handle_missing_values "mean" t =
      ({ t with rows := t.rows.map (fillRow (numericIdx t) (colMeanQ t)) }, false) := rfl

theorem handle_median_def (t : Table) :
    handle_missing_values "median" t =
      ({ t with rows := t.rows.map (fillRow (numericIdx t) (colMedianQ t)) }, false) := rfl

theorem handle_drop_def (t : Table) :
    handle_missing_values "drop" t =
      ({ t with rows := t.rows.filter (fun r => !r.any (fun v => v == Value.na)) }, false) := rfl

theorem handle_unknown_def (s : String) (t : Table)
    (h1 : s ≠ "mean") (h2 : s ≠ "median") (h3 : s ≠ "drop") :
    handle_missing_values s t =
      ({ t with rows := t.rows.map (fillRow (numericIdx t) (colMeanQ t)) }, true) := by
  unfold handle_missing_values
  rw [if_neg h3, if_neg h1, if_neg h2]

/-- Claim C8: under the `mean` and `median` strategies every
non-numeric column of the output is identical to the input column,
absences included. -/
theorem nonnumeric_columns_unchanged (s : String) (t : Table) (j : Nat)
    (hs : s = "mean" ∨ s = "median") (hj : j ∉ numericIdx t) :
    colVals (handle_missing_values s t).1 j = colVals t j := by
  have hc : (numericIdx t).contains j = false := by simpa using hj
  have key : ∀ (fill : Nat → Option ℚ) (r : Row),
      (fillRow (numericIdx t) fill r).getD j Value.na = r.getD j Value.na := by
    intro fill r
    by_cases hjr : j < r.length
    · rw [fillRow_getD _ _ _ _ hjr]
      cases hval : r.getD j Value.na <;> simp [applyFill, hc, hj]
    · have h1 : r.length ≤ j := Nat.le_of_not_lt hjr
      rw [List.getD_eq_default _ _ h1, List.getD_eq_default]
      rw [fillRow_length]
      exact h1
  have hmap : ∀ (fill : Nat → Option ℚ),
      colVals ({ t with rows := t.rows.map (fillRow (numericIdx t) fill) } : Table) j
        = colVals t j := by
    intro fill
    unfold colVals
    simp only [List.map_map]
    exact List.map_congr_left (fun r _ => key fill r)
  rcases hs with h | h <;> subst h
  · rw [handle_mean_def]
    exact hmap (colMeanQ t)
  · rw [handle_median_def]
    exact hmap (colMedianQ t)

/-- Witness for C8 at `T2`: the `object` column (index 1) is unchanged
by the `mean` strategy, keeping its NA cell. -/
theorem nonnumeric_columns_unchanged_witness :
    colVals (handle_missing_values "mean" T2).1 1 = colVals T2 1 :=
  nonnumeric_columns_unchanged "mean" T2 1 (Or.inl rfl) (by decide)

/-- Counterexample to claim C2 as stated: for a numeric column all of
whose cells are NA, `df.mean()` (and `df.median()`) of that column is
NaN, so `fillna` fills nothing and the column still contains an absent
value after the `mean` (or `median`) strategy. -/
theorem missing_mean_completeness_cex :
    0 ∈ numericIdx Tna ∧ Tna.WF ∧
    (handle_missing_values "mean" Tna).1.rows = [[Value.na]] ∧
    (handle_missing_values "median" Tna).1.rows = [[Value.na]] := by decide

/-- Claim C2, amended: under `mean` (resp. `median`) every NA cell of a
numeric column that has at least one present value is replaced by the
mean (resp. median) of that column over its present values; afterwards no
such column contains an absent value; under `drop` a row is kept iff it
contains no absent value in any column (so every row with an absent
value is removed and none remains). -/
theorem missing_value_handling_amended (t : Table) (hwf : t.WF) :
    (∀ i j m, j ∈ numericIdx t → colMeanQ t j = some m →
        i < t.rows.length → (t.rows.getD i []).getD j Value.na = Value.na →
        ((handle_missing_values "mean" t).1.rows.getD i []).getD j Value.na = Value.num m) ∧
    (∀ j, j ∈ numericIdx t → colMeanQ t j ≠ none →
        ∀ r ∈ (handle_missing_values "mean" t).1.rows, r.getD j Value.na ≠ Value.na) ∧
    (∀ i j m, j ∈ numericIdx t → colMedianQ t j = some m →
        i < t.rows.length → (t.rows.getD i []).getD j Value.na = Value.na →
        ((handle_missing_values "median" t).1.rows.getD i []).getD j Value.na = Value.num m) ∧
    (∀ j, j ∈ numericIdx t → colMedianQ t j ≠ none →
        ∀ r ∈ (handle_missing_values "median" t).1.rows, r.getD j Value.na ≠ Value.na) ∧
    (∀ r, r ∈ (handle_missing_values "drop" t).1.rows ↔ r ∈ t.rows ∧ Value.na ∉ r) := by
  have hnum_lt : ∀ j ∈ numericIdx t, j < t.header.length := by
    intro j hj
    exact List.mem_range.1 (List.mem_filter.1 hj).1
  have hfill_na : ∀ (fill : Nat → Option ℚ) (i j : Nat) (m : ℚ),
      j ∈ numericIdx t → fill j = some m →
      i < t.rows.length → (t.rows.getD i []).getD j Value.na = Value.na →
      ((t.rows.map (fillRow (numericIdx t) fill)).getD i []).getD j Value.na
        = Value.num m := by
    intro fill i j m hj hf hi hna
    rw [getD_map_fillRow _ _ _ i hi]
    have hrow : t.rows.getD i [] ∈ t.rows := by
      rw [List.getD_eq_getElem _ _ hi]
      exact List.getElem_mem hi
    have hjlen : j < (t.rows.getD i []).length := by
      rw [hwf _ hrow]
      exact hnum_lt j hj
    rw [fillRow_getD _ _ _ _ hjlen, hna]
    have hct : (numericIdx t).contains j = true := by simpa using hj
    have hmemn : j ∈ numericIdx t := hj
    simp [applyFill, hct, hf, hmemn]
  have hfill_complete : ∀ (fill : Nat → Option ℚ) (j : Nat),
      j ∈ numericIdx t → fill j ≠ none →
      ∀ r ∈ t.rows.map (fillRow (numericIdx t) fill), r.getD j Value.na ≠ Value.na := by
    intro fill j hj hf r hr
    obtain ⟨r0, hr0, rfl⟩ := List.mem_map.1 hr
    have hjlen : j < r0.length := by
      rw [hwf _ hr0]
      exact hnum_lt j hj
    rw [fillRow_getD _ _ _ _ hjlen]
    obtain ⟨m, hm⟩ := Option.ne_none_iff_exists'.1 hf
    have hct : (numericIdx t).contains j = true := by simpa using hj
    exact applyFill_ne_na hct hm _
  refine ⟨?_, ?_, ?_, ?_, ?_⟩
  · intro i j m hj hm hi hna
    rw [handle_mean_def]
    exact hfill_na (colMeanQ t) i j m hj hm hi hna
  · intro j hj hne r hr
    rw [handle_mean_def] at hr
    exact hfill_complete (colMeanQ t) j hj hne r hr
  · intro i j m hj hm hi hna
    rw [handle_median_def]
    exact hfill_na (colMedianQ t) i j m hj hm hi hna
  · intro j hj hne r hr
    rw [handle_median_def] at hr
    exact hfill_complete (colMedianQ t) j hj hne r hr
  · intro r
    rw [handle_drop_def]
    show r ∈ t.rows.filter _ ↔ _
    rw [List.mem_filter]
    simp only [Bool.not_eq_true', List.any_eq_false, beq_iff_eq]
    constructor
    · rintro ⟨h1, h2⟩
      exact ⟨h1, fun hmem => h2 Value.na hmem rfl⟩
    · rintro ⟨h1, h2⟩
      exact ⟨h1, fun v hv hveq => h2 (hveq ▸ hv)⟩

/-- Witness for the amended C2 at `T2`: the NA in the float column
(mean 3 over `[1, 3, 5]`) is replaced by 3 in row 1. -/
theorem missing_value_handling_amended_witness :
    ((handle_missing_values "mean" T2).1.rows.getD 1 []).getD 2 Value.na = Value.num 3 :=
  (missing_value_handling_amended T2 (by decide)).1 1 2 3 (by decide) (by decide)
    (by decide) (by decide)

/-- Claim C6: any strategy string outside mean/median/drop behaves
exactly as `mean` (also through a whole `process_dataset` call), and
only logs a warning. -/
theorem unknown_strategy_fallback (s : String) (t : Table) (st : ProcState) (now : Nat)
    (h1 : s ≠ "mean") (h2 : s ≠ "median") (h3 : s ≠ "drop") :
    (handle_missing_values s t).1 = (handle_missing_values "mean" t).1 ∧
    (handle_missing_values s t).2 = true ∧
    process_dataset { missing_value_strategy := some s } st now t =
      process_dataset { missing_value_strategy := some "mean" } st now t := by
  have hu : ∀ t' : Table, handle_missing_values s t' =
      ({ t' with rows := t'.rows.map (fillRow (numericIdx t') (colMeanQ t')) }, true) :=
    fun t' => handle_unknown_def s t' h1 h2 h3
  refine ⟨by rw [hu, handle_mean_def], by rw [hu], ?_⟩
  unfold process_dataset
  have hst : (fun d => Except.ok (pipelineStages { missing_value_strategy := some s } d)
        : Table → Except String Table)
      = (fun d => Except.ok
          (pipelineStages ({ missing_value_strategy := some "mean" } : Config) d)) := by
    funext d
    unfold pipelineStages
    show Except.ok (handle_missing_values s _).1 = Except.ok (handle_missing_values "mean" _).1
    rw [hu, handle_mean_def]
  rw [hst]

/-- Witness for C6 with the strategy string `bogus` on `T2`. -/
theorem unknown_strategy_fallback_witness :
    (handle_missing_values "bogus" T2).1 = (handle_missing_values "mean" T2).1 :=
  (unknown_strategy_fallback "bogus" T2 ⟨0, 0⟩ 1 (by decide) (by decide) (by decide)).1

/-! Process orchestration: error handling, result invariant, counters. -/

/-- Claim C3: any failure inside the pipeline (the empty check raising,
or a stage computation failing) is caught and returned as a
`success=false` Result carrying the failure message under `"error"`,
with the instance state untouched; no exception escapes `process`. -/
theorem process_catches_failures (stages : Table → Except String Table) (st : ProcState)
    (now : Nat) (t : Table) (e : String) (h : tryProcess stages t = Except.error e) :
    processWith stages st now t =
      ({ data := none, stats := [("error", StatVal.s e)], success := false }, st) := by
  unfold processWith
  rw [h]

/-- Witness for C3: a failing stage computation (an internal error on a
non-empty table) is converted into the failed Result. -/
theorem process_catches_failures_witness :
    processWith failingStages ⟨7, 2⟩ 9 Tone =
      ({ data := none, stats := [("error", StatVal.s "unsupported operand type")],
         success := false }, ⟨7, 2⟩) :=
  process_catches_failures failingStages ⟨7, 2⟩ 9 Tone "unsupported operand type" (by decide)

/-- Claim C4: every Result of `process` has `success = true` iff `data`
is present; a failed Result carries an `"error"` stat; a successful
Result carries `"record_count"` (equal to the row count of the returned
table) and `"processing_time"`. -/
theorem process_result_invariant (stages : Table → Except String Table) (st : ProcState)
    (now : Nat) (t : Table) (r : ProcessingResult)
    (hr : (processWith stages st now t).1 = r) :
    (r.success = true ↔ r.data.isSome = true) ∧
    (r.success = false → r.stats.lookup "error" ≠ none) ∧
    (∀ d, r.data = some d →
      r.stats.lookup "record_count" = some (StatVal.n d.rows.length) ∧
      r.stats.lookup "processing_time" = some (StatVal.n (now - st.start_time))) := by
  cases htp : tryProcess stages t with
  | error e =>
    rw [processWith, htp] at hr
    subst hr
    refine ⟨by simp, fun _ => by simp [List.lookup], fun d hd => by simp at hd⟩
  | ok out =>
    rw [processWith, htp] at hr
    subst hr
    refine ⟨by simp, fun hfalse => by simp at hfalse, fun d hd => ?_⟩
    have hd' : out = d := by simpa using hd
    subst hd'
    constructor <;> rfl

/-- Witness for C4 on a successful run over `T1`. -/
theorem process_result_invariant_witness :
    ((process_dataset ⟨some "mean"⟩ ⟨0, 1⟩ 5 T1).1.success = true ↔
      (process_dataset ⟨some "mean"⟩ ⟨0, 1⟩ 5 T1).1.data.isSome = true) :=
  (process_result_invariant (fun d => Except.ok (pipelineStages ⟨some "mean"⟩ d)) ⟨0, 1⟩ 5 T1
    (process_dataset ⟨some "mean"⟩ ⟨0, 1⟩ 5 T1).1 rfl).1

/-- Claim C7: a zero-row table short-circuits `process`: the result is
exactly the failed Result with stats `{"error": "Empty dataset
provided"}` and untouched state, independently of the stage
computations (no pipeline stage is applied). -/
theorem empty_input_result (st : ProcState) (now : Nat) (t : Table) (h : t.rows = []) :
    (∀ stages, processWith stages st now t =
      ({ data := none, stats := [("error", StatVal.s "Empty dataset provided")],
         success := false }, st)) ∧
    (∀ cfg, process_dataset cfg st now t =
      ({ data := none, stats := [("error", StatVal.s "Empty dataset provided")],
         success := false }, st)) := by
  have hempty : t.rows.isEmpty = true := by rw [h]; rfl
  have hstage : ∀ stages : Table → Except String Table,
      tryProcess stages t = Except.error "Empty dataset provided" := by
    intro stages
    unfold tryProcess
    rw [if_pos hempty]
  constructor
  · intro stages
    unfold processWith
    rw [hstage stages]
  · intro cfg
    unfold process_dataset processWith
    rw [hstage _]

/-- Witness for C7 on the empty table `TEmpty`. -/
theorem empty_input_result_witness :
    process_dataset ⟨some "median"⟩ ⟨3, 0⟩ 4 TEmpty =
      ({ data := none, stats := [("error", StatVal.s "Empty dataset provided")],
         success := false }, ⟨3, 0⟩) :=
  (empty_input_result ⟨3, 0⟩ 4 TEmpty (by decide)).2 ⟨some "median"⟩

/-- Claim C10: a failed `process` invocation leaves the accumulated
counter (and everything `processing_stats` reports) unchanged; only a
successful invocation increments it, by the record count of that
invocation. -/
theorem processed_counter_accumulation (stages : Table → Except String Table)
    (st : ProcState) (now : Nat) (t : Table) :
    ((processWith stages st now t).1.success = false →
      (processWith stages st now t).2 = st ∧
      ∀ n2, processing_stats (processWith stages st now t).2 n2 = processing_stats st n2) ∧
    (∀ d, (processWith stages st now t).1.data = some d →
      (processWith stages st now t).2.processed_count = st.processed_count + d.rows.length) := by
  cases htp : tryProcess stages t with
  | error e =>
    rw [processWith, htp]
    exact ⟨fun _ => ⟨rfl, fun n2 => rfl⟩, fun d hd => by simp at hd⟩
  | ok out =>
    rw [processWith, htp]
    refine ⟨fun hfalse => by simp at hfalse, fun d hd => ?_⟩
    have hd' : out = d := by simpa using hd
    subst hd'
    rfl

/-- Witness for C10: the failed run on `Tone` (failing stage) leaves
the counter at 7. -/
theorem processed_counter_accumulation_witness :
    (processWith failingStages ⟨7, 2⟩ 9 Tone).2 = (⟨7, 2⟩ : ProcState) ∧
    ∀ n2, processing_stats (processWith failingStages ⟨7, 2⟩ 9 Tone).2 n2 =
      processing_stats (⟨7, 2⟩ : ProcState) n2 :=
  (processed_counter_accumulation failingStages ⟨7, 2⟩ 9 Tone).1 (by decide)

/-! Schema validation lemmas. -/

theorem checkTypes_ok (cols cts : List (String × String))
    (h : ∀ p ∈ cts, headerDtype cols p.1 = none ∨ headerDtype cols p.1 = some p.2) :
    checkTypes cols cts = Except.ok true := by
  induction cts with
  | nil => rfl
  | cons p rest ih =>
    obtain ⟨c, e⟩ := p
    unfold checkTypes
    cases hd : headerDtype cols c with
    | none => exact ih (fun q hq => h q (List.mem_cons_of_mem _ hq))
    | some a =>
      have hae : a = e := by
        rcases h (c, e) (List.mem_cons_self _ _) with h1 | h1
        · rw [hd] at h1
          cases h1
        · rw [hd] at h1
          exact Option.some.inj h1
      dsimp only
      rw [if_pos hae]
      exact ih (fun q hq => h q (List.mem_cons_of_mem _ hq))

theorem checkTypes_first_mismatch (cols : List (String × String))
    (pre post : List (String × String)) (c e a : String)
    (hpre : ∀ p ∈ pre, headerDtype cols p.1 = none ∨ headerDtype cols p.1 = some p.2)
    (ha : headerDtype cols c = some a) (hne : a ≠ e) :
    checkTypes cols (pre ++ (c, e) :: post) =
      Except.error ("Column \x27" ++ c ++ "\x27 has type " ++ a ++ ", expected " ++ e) := by
  induction pre with
  | nil =>
    rw [List.nil_append]
    unfold checkTypes
    rw [ha]
    dsimp only
    rw [if_neg hne]
  | cons p pre' ih =>
    obtain ⟨c', e'⟩ := p
    rw [List.cons_append]
    unfold checkTypes
    cases hd : headerDtype cols c' with
    | none => exact ih (fun q hq => hpre q (List.mem_cons_of_mem _ hq))
    | some a2 =>
      have hae : a2 = e' := by
        rcases hpre (c', e') (List.mem_cons_self _ _) with h1 | h1
        · rw [hd] at h1
          cases h1
        · rw [hd] at h1
          exact Option.some.inj h1
      dsimp only
      rw [if_pos hae]
      exact ih (fun q hq => hpre q (List.mem_cons_of_mem _ hq))

theorem mem_missingColumns (required cols : List String) (c : String) :
    c ∈ missingColumns required cols ↔ c ∈ required ∧ c ∉ cols := by
  unfold missingColumns dedupFirst
  rw [mem_dedupSeen]
  simp [List.mem_filter]

/-- Counterexample to claim C5 as stated: the code formats the Python
set of missing names without sorting it (a Python set iterates in an
unspecified hash order, modelled here as first-occurrence order), so
for `required_columns = ["b", "a"]` the message lists `b` before `a`,
not the sorted set. -/
theorem validate_message_unsorted_cex :
    validate_dataframe schemaBA Tone =
      Except.error "Missing required columns: \x7b\x27b\x27, \x27a\x27\x7d" ∧
    "Missing required columns: \x7b\x27b\x27, \x27a\x27\x7d" ≠
      "Missing required columns: \x7b\x27a\x27, \x27b\x27\x7d" := by decide

/-- Claim C5, amended: `validate` checks required-column presence
before any type check and aborts at the first failing check; the
missing set is exactly the required names absent from the table, with
no duplicates, and the failure message renders that set in an
unspecified (not necessarily sorted) order; type checks compare dtype
tags by exact string identity, in `column_types` order, skipping
columns absent from the table; if nothing fails, `validate` returns
true. -/
theorem validate_dataframe_spec (s : DatasetSchema) (t : Table) :
    (∀ c, c ∈ missingColumns s.required_columns (t.header.map (fun p => p.1)) ↔
        (c ∈ s.required_columns ∧ c ∉ t.header.map (fun p => p.1))) ∧
    (missingColumns s.required_columns (t.header.map (fun p => p.1))).Nodup ∧
    (missingColumns s.required_columns (t.header.map (fun p => p.1)) ≠ [] →
      validate_dataframe s t = Except.error
        ("Missing required columns: " ++
          formatStrSet (missingColumns s.required_columns (t.header.map (fun p => p.1))))) ∧
    (missingColumns s.required_columns (t.header.map (fun p => p.1)) = [] →
      ∀ pre post c e a, s.column_types = pre ++ (c, e) :: post →
        (∀ p ∈ pre, headerDtype t.header p.1 = none ∨ headerDtype t.header p.1 = some p.2) →
        headerDtype t.header c = some a → a ≠ e →
        validate_dataframe s t = Except.error
          ("Column \x27" ++ c ++ "\x27 has type " ++ a ++ ", expected " ++ e)) ∧
    (missingColumns s.required_columns (t.header.map (fun p => p.1)) = [] →
      (∀ p ∈ s.column_types,
        headerDtype t.header p.1 = none ∨ headerDtype t.header p.1 = some p.2) →
      validate_dataframe s t = Except.ok true) := by
  refine ⟨mem_missingColumns _ _, dedupSeen_nodup _ _, ?_, ?_, ?_⟩
  · intro hne
    unfold validate_dataframe
    rw [if_neg]
    simpa [List.isEmpty_iff] using hne
  · intro hmz pre post c e a hcts hpre ha hane
    unfold validate_dataframe
    rw [if_pos (by simp [List.isEmpty_iff, hmz]), hcts]
    exact checkTypes_first_mismatch t.header pre post c e a hpre ha hane
  · intro hmz hall
    unfold validate_dataframe
    rw [if_pos (by simp [List.isEmpty_iff, hmz])]
    exact checkTypes_ok t.header s.column_types hall

/-- Witness for the amended C5: on `T2`, the first mismatch under
`schemaT2` is
the `value` column (float64 vs declared int64), after the passing `id`
entry. -/
theorem validate_dataframe_spec_witness :
    validate_dataframe schemaT2 T2 =
      Except.error "Column \x27value\x27 has type float64, expected int64" :=
  (validate_dataframe_spec schemaT2 T2).2.2.2.1 (by decide)
    [("id", "int64")] [] "value" "int64" "float64" (by decide) (by decide)
    (by decide) (by decide)

end DataProcessor
